import Mathlib

/-!
Shallow embedding of `src/gallery/cypher-beam/app.js` (CypherBeam):
particle lifecycle manager, keyword/sentiment scanner, and the
debounced translation dispatcher, together with proofs of the
specification's claims about them.
-/

namespace CypherBeam

/-- `MAX_EMOJIS` from the source: the particle cap. -/
def MAX_EMOJIS : Nat := 40

/-- Kind of a particle: an emoji particle (`addEmojiParticle`) or a faint
text particle (`addTextParticle`). -/
inductive PKind where
  | emoji
  | text
deriving DecidableEq

/-- A particle `span` in the emoji zone. `pid` stands for the DOM node
identity (fresh per spawn), `floating`/`fading` model the CSS classes the
timer callbacks toggle. -/
structure Particle where
  pid : Nat
  kind : PKind
  content : String
  floating : Bool
  fading : Bool
deriving DecidableEq

/-- Mood class on the emoji zone, set by `updateMood`. -/
inductive Mood where
  | positive
  | negative
  | neutral
deriving DecidableEq

/-- The particle-and-sentiment part of the script's global state:
`emojiZone`'s children in DOM order (oldest first), `emojiCount`,
`positiveScore`, `negativeScore`, and the mood class. `emojiCount` is an
`Int` because the source decrements a plain counter. `nextId` supplies
fresh DOM identities. -/
structure PartState where
  zone : List Particle
  emojiCount : Int
  nextId : Nat
  positiveScore : Int
  negativeScore : Int
  mood : Mood
deriving DecidableEq

/-- Initial particle state (all counters zero, empty zone). -/
def initPartState : PartState :=
  { zone := [], emojiCount := 0, nextId := 0,
    positiveScore := 0, negativeScore := 0, mood := Mood.neutral }

/-- `removeOldestEmoji`: removes the first `.emoji-particle` child of the
zone (the oldest, since spawns append) and decrements `emojiCount`;
does nothing when the zone has no particle. -/
def removeOldestEmoji (s : PartState) : PartState :=
  if s.zone.isEmpty then s
  else { s with zone := s.zone.tail, emojiCount := s.emojiCount - 1 }

/-- `addEmojiParticle`: evicts the oldest particle when
`emojiCount >= MAX_EMOJIS`, then appends a fresh emoji span and
increments `emojiCount`. -/
def addEmojiParticle (emoji : String) (s : PartState) : PartState :=
  let s1 := if s.emojiCount ≥ (MAX_EMOJIS : Int) then removeOldestEmoji s else s
  { s1 with
    zone := s1.zone ++ [⟨s1.nextId, PKind.emoji, emoji, false, false⟩],
    emojiCount := s1.emojiCount + 1,
    nextId := s1.nextId + 1 }

/-- `addTextParticle`: returns immediately (dropping the word) when
`emojiCount >= MAX_EMOJIS`; otherwise appends a fresh text span and
increments `emojiCount`. -/
def addTextParticle (word : String) (s : PartState) : PartState :=
  if s.emojiCount ≥ (MAX_EMOJIS : Int) then s
  else
    { s with
      zone := s.zone ++ [⟨s.nextId, PKind.text, word, false, false⟩],
      emojiCount := s.emojiCount + 1,
      nextId := s.nextId + 1 }

/-- `clearEmojis`: empties the zone, zeroes `emojiCount` and both
sentiment scores, and removes the mood classes. -/
def clearEmojis (s : PartState) : PartState :=
  { s with
    zone := [], emojiCount := 0,
    positiveScore := 0, negativeScore := 0, mood := Mood.neutral }

/-- `updateMood`: recomputes the mood class from
`positiveScore - negativeScore` with thresholds `> 2` and `< -2`. -/
def updateMood (s : PartState) : PartState :=
  let diff := s.positiveScore - s.negativeScore
  { s with
    mood := if diff > 2 then Mood.positive
            else if diff < -2 then Mood.negative
            else Mood.neutral }

/-- `span.parentNode` check: the particle with this identity is still
attached to the zone. -/
def attached (s : PartState) (pid : Nat) : Bool :=
  s.zone.any (fun p => p.pid = pid)

/-- The 600ms pop-animation callback in `addEmojiParticle`: when the span
is still attached, add the `floating` class; otherwise no-op. -/
def popFloat (pid : Nat) (s : PartState) : PartState :=
  { s with zone := s.zone.map (fun p =>
      if p.pid = pid then { p with floating := true } else p) }

/-- The 30s fade callback in `addEmojiParticle`: when the span is still
attached, remove `floating`, add `fading`; otherwise no-op. -/
def fadeStartEmoji (pid : Nat) (s : PartState) : PartState :=
  { s with zone := s.zone.map (fun p =>
      if p.pid = pid then { p with floating := false, fading := true } else p) }

/-- The 10s fade callback in `addTextParticle`: when the span is still
attached, add `fading`; otherwise no-op. -/
def fadeStartText (pid : Nat) (s : PartState) : PartState :=
  { s with zone := s.zone.map (fun p =>
      if p.pid = pid then { p with fading := true } else p) }

/-- Removes the span with the given DOM identity from the zone
(`span.remove()`). -/
def removeById (pid : Nat) : List Particle → List Particle
  | [] => []
  | p :: rest => if p.pid = pid then rest else p :: removeById pid rest

/-- The 1s removal callback (inner `setTimeout` of both fade callbacks):
when the span is still attached, remove it and decrement `emojiCount`;
otherwise no-op. -/
def fadeRemove (pid : Nat) (s : PartState) : PartState :=
  if attached s pid then
    { s with zone := removeById pid s.zone, emojiCount := s.emojiCount - 1 }
  else s

/-- Events on the particle state: spawns, the timer callbacks, and
`clearEmojis`. -/
inductive PEvent where
  | spawnEmoji (e : String)
  | spawnText (w : String)
  | popFloat (pid : Nat)
  | fadeStartEmoji (pid : Nat)
  | fadeStartText (pid : Nat)
  | fadeRemove (pid : Nat)
  | clear
deriving DecidableEq

/-- One step of the particle subsystem. -/
def pstep : PEvent → PartState → PartState
  | PEvent.spawnEmoji e, s => addEmojiParticle e s
  | PEvent.spawnText w, s => addTextParticle w s
  | PEvent.popFloat pid, s => popFloat pid s
  | PEvent.fadeStartEmoji pid, s => fadeStartEmoji pid s
  | PEvent.fadeStartText pid, s => fadeStartText pid s
  | PEvent.fadeRemove pid, s => fadeRemove pid s
  | PEvent.clear, s => clearEmojis s

/-- Run a sequence of particle events. -/
def prun (evs : List PEvent) (s : PartState) : PartState :=
  evs.foldl (fun s e => pstep e s) s

/-- The punctuation class stripped by `processWordsForEmoji`
(the regex `[.,!?;:'"()]`); character codes 39 and 34 are the single and
double quote. -/
def PUNCT : List Char := ['.', ',', '!', '?', ';', ':', Char.ofNat 39, Char.ofNat 34, '(', ')']

/-- `text.toLowerCase()` as a character list (ASCII case folding). -/
def toLowerChars (text : String) : List Char :=
  text.toList.map Char.toLower

/-- Splits a character list on runs of whitespace (the regex `\s+`),
dropping empty fragments. -/
def splitWsAux : List Char → List Char → List (List Char)
  | [], cur => if cur.isEmpty then [] else [cur.reverse]
  | c :: rest, cur =>
    if c.isWhitespace then
      if cur.isEmpty then splitWsAux rest [] else cur.reverse :: splitWsAux rest []
    else splitWsAux rest (c :: cur)

/-- The tokenization in `processWordsForEmoji`: lowercase, strip
punctuation, split on whitespace, keep words with `length > 1`. -/
def tokenize (text : String) : List String :=
  let cleaned := (toLowerChars text).filter (fun c => ¬ PUNCT.contains c)
  ((splitWsAux cleaned []).map (fun cs => String.mk cs)).filter (fun w => w.length > 1)

/-- `hay.includes(needle)` on character lists. -/
def includesSub (needle : List Char) : List Char → Bool
  | [] => needle.isEmpty
  | c :: rest => needle.isPrefixOf (c :: rest) || includesSub needle rest

/-- The static dictionaries (`window.EMOJI_DICT`, `window.POSITIVE_WORDS`,
`window.NEGATIVE_WORDS`). The emoji dictionary is an association list in
object-key insertion order. -/
structure Dicts where
  emojiDict : List (String × String)
  positiveWords : List String
  negativeWords : List String

/-- Whether a dictionary key is a multi-word combo (`k.includes(" ")`). -/
def comboKey (k : String) : Bool := k.toList.contains ' '

/-- The combo pass of `processWordsForEmoji`: every multi-word key of the
emoji dictionary contained in the lowercased text spawns its emoji. -/
def scanCombos (d : Dicts) (lowerText : List Char) (s : PartState) : PartState :=
  (d.emojiDict.filter (fun kv => comboKey kv.1)).foldl
    (fun s kv => if includesSub kv.1.toList lowerText then addEmojiParticle kv.2 s else s) s

/-- The per-word body of the single-word loop in `processWordsForEmoji`:
sentiment counters, then emoji lookup (an empty emoji value is falsy in
the source, hence treated as no match), else a text particle for words
longer than 3 characters. -/
def scanWord (d : Dicts) (s : PartState) (w : String) : PartState :=
  let s1 := if d.positiveWords.contains w
            then { s with positiveScore := s.positiveScore + 1 } else s
  let s2 := if d.negativeWords.contains w
            then { s1 with negativeScore := s1.negativeScore + 1 } else s1
  let emoji := (List.lookup w d.emojiDict).getD ""
  if emoji ≠ "" then addEmojiParticle emoji s2
  else if w.length > 3 then addTextParticle w s2
  else s2

/-- `processWordsForEmoji`: combo pass on the lowercased raw text, then
the single-word loop over the tokens, then `updateMood`. -/
def processWordsForEmoji (d : Dicts) (text : String) (s : PartState) : PartState :=
  let words := tokenize text
  let s1 := scanCombos d (toLowerChars text) s
  let s2 := words.foldl (scanWord d) s1
  updateMood s2

/-- The translation-dispatcher part of the script's global state:
`finalTranscript`, `lastTranslatedText`, the pending debounce callback
(`translateTimer`, holding the text the scheduled closure captured), and
a ghost log of the texts passed to `translateAll`. -/
structure TransState where
  finalTranscript : String
  lastTranslatedText : String
  pending : Option String
  dispatched : List String
deriving DecidableEq

/-- Initial dispatcher state. -/
def initTransState : TransState :=
  { finalTranscript := "", lastTranslatedText := "", pending := none, dispatched := [] }

/-- `scheduleTranslation`: `clearTimeout` of the previous timer and
`setTimeout` of a fresh 800ms one whose closure captures `text`. -/
def scheduleTranslation (text : String) (s : TransState) : TransState :=
  { s with pending := some text }

/-- The debounce timer elapsing uncancelled: the scheduled closure runs;
when its captured text is truthy (non-empty) and differs from
`lastTranslatedText`, it records the text and calls `translateAll`. -/
def fireDebounce (s : TransState) : TransState :=
  match s.pending with
  | none => s
  | some text =>
    if text ≠ "" ∧ text ≠ s.lastTranslatedText then
      { s with pending := none, lastTranslatedText := text,
               dispatched := s.dispatched ++ [text] }
    else { s with pending := none }

/-- The append of freshly finalized speech text in `handleResult`:
when non-empty, grow `finalTranscript` and call `scheduleTranslation`
with the grown transcript. -/
def handleFinalText (newText : String) (s : TransState) : TransState :=
  if newText ≠ "" then
    let s1 := { s with finalTranscript := s.finalTranscript ++ newText }
    scheduleTranslation s1.finalTranscript s1
  else s

/-- The dispatcher-state effect of `handleLangChange`: `finalTranscript`
and `lastTranslatedText` are reset, but the source contains no
`clearTimeout`, so a pending debounce callback stays pending. -/
def handleLangChangeTrans (s : TransState) : TransState :=
  { s with finalTranscript := "", lastTranslatedText := "" }

/-- The dispatcher-state effect of the KeyC clear shortcut: identical to
the language change — no `clearTimeout` in the source, the pending
debounce callback stays pending. -/
def clearSessionTrans (s : TransState) : TransState :=
  { s with finalTranscript := "", lastTranslatedText := "" }

/-- `ALL_LANGS` from the source. -/
def ALL_LANGS : List String := ["de", "en", "fr", "es"]

/-- `targetLangs`: every configured language except the active source
language. -/
def targetLangs (sourceLang : String) : List String :=
  ALL_LANGS.filter (fun l => l ≠ sourceLang)

/-- The JSON body the translation endpoint returned
(`data.responseData.translatedText`; an absent or empty string field is
falsy in the source). -/
structure ApiData where
  translatedText : String
deriving DecidableEq

/-- A parsed response (`data.responseStatus`, `data.responseData`). -/
structure ApiJson where
  responseStatus : Int
  responseData : Option ApiData
deriving DecidableEq

/-- Outcome of one `fetch` of the translation endpoint: network failure,
or an HTTP response with `resp.ok` and a JSON body (`none` when
`resp.json()` throws). -/
inductive FetchResult where
  | netError
  | http (ok : Bool) (json : Option ApiJson)
deriving DecidableEq

/-- `translateText`: returns the translated string exactly when the fetch
succeeded, the body parsed, `responseStatus === 200` and
`responseData.translatedText` is truthy; every failure path (the catch
clause included) returns `null`. -/
def translateText (r : FetchResult) : Option String :=
  match r with
  | FetchResult.netError => none
  | FetchResult.http ok json =>
    if ok then
      match json with
      | none => none
      | some data =>
        if data.responseStatus = 200 then
          match data.responseData with
          | some rd => if rd.translatedText ≠ "" then some rd.translatedText else none
          | none => none
        else none
    else none

/-- The translation cards: an association of target language to the
card's `textContent` (a language that has no card is simply absent). -/
def Slots := List (String × String)

/-- Writing one card's `textContent`; a missing card is left alone
(the `if (el)` guard). -/
def setSlot (slots : Slots) (lang v : String) : Slots :=
  slots.map (fun kv => if kv.1 = lang then (kv.1, v) else kv)

/-- `translateAll` after the `Promise.allSettled` join: the per-target
outcomes are processed in target order; a fulfilled truthy value writes
that target's card, anything else leaves the card untouched. Totality of
this function models that no exception escapes the batch. -/
def translateAll (targets : List String) (resp : String → FetchResult)
    (slots : Slots) : Slots :=
  targets.foldl (fun sl lang =>
    match translateText (resp lang) with
    | some v => setSlot sl lang v
    | none => sl) slots

/-! Helper lemmas about the particle subsystem. -/

/-- The bookkeeping invariant of the particle subsystem: the counter
matches the number of spans in the zone, and the zone is within the cap. -/
def PInv (s : PartState) : Prop :=
  s.emojiCount = (s.zone.length : Int) ∧ s.zone.length ≤ MAX_EMOJIS

theorem removeById_length (pid : Nat) (l : List Particle)
    (h : l.any (fun p => p.pid = pid) = true) :
    (removeById pid l).length + 1 = l.length := by
  induction l with
  | nil => simp at h
  | cons p rest ih =>
    by_cases hp : p.pid = pid
    · simp [removeById, hp]
    · simp only [List.any_cons, Bool.or_eq_true, decide_eq_true_eq] at h
      rcases h with h | h
      · exact absurd h hp
      · simp [removeById, hp, ih h]

theorem removeById_of_not_attached (pid : Nat) (l : List Particle)
    (h : ∀ p ∈ l, p.pid ≠ pid) : removeById pid l = l := by
  induction l with
  | nil => rfl
  | cons p rest ih =>
    have hp : p.pid ≠ pid := h p (List.mem_cons_self p rest)
    simp [removeById, hp]
    exact ih (fun q hq => h q (List.mem_cons_of_mem p hq))

theorem map_pid_of_not_attached (pid : Nat) (f : Particle → Particle)
    (l : List Particle) (h : ∀ p ∈ l, p.pid ≠ pid) :
    l.map (fun p => if p.pid = pid then f p else p) = l := by
  induction l with
  | nil => rfl
  | cons p rest ih =>
    have hp : p.pid ≠ pid := h p (List.mem_cons_self p rest)
    simp [hp]
    exact ih (fun q hq => h q (List.mem_cons_of_mem p hq))

theorem addEmojiParticle_inv (em : String) (s : PartState) (h : PInv s) :
    PInv (addEmojiParticle em s) := by
  obtain ⟨hsync, hcap⟩ := h
  have hM : MAX_EMOJIS = 40 := rfl
  rw [hM] at hcap
  by_cases hge : s.emojiCount ≥ (MAX_EMOJIS : Int)
  · have hlen40 : s.zone.length = 40 := by
      have h1 : ((MAX_EMOJIS : Nat) : Int) ≤ (s.zone.length : Int) := by
        rw [← hsync]; exact hge
      rw [hM] at h1
      omega
    have hz : s.zone.isEmpty = false := by
      cases hzz : s.zone with
      | nil => rw [hzz] at hlen40; simp at hlen40
      | cons a b => rfl
    constructor
    · simp only [addEmojiParticle, if_pos hge, removeOldestEmoji, hz]
      simp only [Bool.false_eq_true, if_false, List.length_append, List.length_tail,
        List.length_cons, List.length_nil]
      omega
    · simp only [PInv, addEmojiParticle, if_pos hge, removeOldestEmoji, hz]
      simp only [Bool.false_eq_true, if_false, List.length_append, List.length_tail,
        List.length_cons, List.length_nil, hM]
      omega
  · have hlt : s.zone.length < 40 := by
      have h1 : s.emojiCount < ((MAX_EMOJIS : Nat) : Int) := lt_of_not_ge hge
      rw [hsync, hM] at h1
      omega
    constructor
    · simp only [addEmojiParticle, if_neg hge, List.length_append, List.length_cons,
        List.length_nil]
      omega
    · simp only [addEmojiParticle, if_neg hge]
      simp only [List.length_append, List.length_cons, List.length_nil, hM]
      omega

theorem addTextParticle_inv (w : String) (s : PartState) (h : PInv s) :
    PInv (addTextParticle w s) := by
  obtain ⟨hsync, hcap⟩ := h
  have hM : MAX_EMOJIS = 40 := rfl
  rw [hM] at hcap
  by_cases hge : s.emojiCount ≥ (MAX_EMOJIS : Int)
  · constructor
    · simp only [addTextParticle, if_pos hge]
      exact hsync
    · simp only [addTextParticle, if_pos hge]
      simp only [hM]
      exact hcap
  · have hlt : s.zone.length < 40 := by
      have h1 : s.emojiCount < ((MAX_EMOJIS : Nat) : Int) := lt_of_not_ge hge
      rw [hsync, hM] at h1
      omega
    constructor
    · simp only [addTextParticle, if_neg hge, List.length_append, List.length_cons,
        List.length_nil]
      omega
    · simp only [addTextParticle, if_neg hge]
      simp only [List.length_append, List.length_cons, List.length_nil, hM]
      omega

theorem pstep_preserves_inv (e : PEvent) (s : PartState) (h : PInv s) :
    PInv (pstep e s) := by
  cases e with
  | spawnEmoji em => exact addEmojiParticle_inv em s h
  | spawnText w => exact addTextParticle_inv w s h
  | popFloat pid =>
    exact ⟨by simpa [pstep, popFloat] using h.1, by simpa [pstep, popFloat] using h.2⟩
  | fadeStartEmoji pid =>
    exact ⟨by simpa [pstep, fadeStartEmoji] using h.1,
           by simpa [pstep, fadeStartEmoji] using h.2⟩
  | fadeStartText pid =>
    exact ⟨by simpa [pstep, fadeStartText] using h.1,
           by simpa [pstep, fadeStartText] using h.2⟩
  | fadeRemove pid =>
    obtain ⟨hsync, hcap⟩ := h
    simp only [pstep, fadeRemove]
    by_cases ha : attached s pid
    · have hlen := removeById_length pid s.zone ha
      constructor
      · simp only [ha, if_pos]
        rw [hsync]
        omega
      · simp only [ha, if_pos]
        omega
    · simpa [ha] using ⟨hsync, hcap⟩
  | clear =>
    exact ⟨by simp [pstep, clearEmojis], by simp [pstep, clearEmojis, MAX_EMOJIS]⟩

theorem prun_preserves_inv (evs : List PEvent) (s : PartState) (h : PInv s) :
    PInv (prun evs s) := by
  induction evs generalizing s with
  | nil => exact h
  | cons e rest ih => exact ih (pstep e s) (pstep_preserves_inv e s h)

theorem initPartState_inv : PInv initPartState := by
  constructor <;> simp [initPartState, MAX_EMOJIS]

/-- C2: for every sequence of particle spawns, timer firings, evictions
and clears, run from the initial state, the active particle count never
exceeds 40 (stated for every event sequence, hence at every point of
every run). -/
theorem particle_cap_never_exceeded (evs : List PEvent) :
    (prun evs initPartState).emojiCount ≤ 40 := by
  obtain ⟨hsync, hcap⟩ := prun_preserves_inv evs initPartState initPartState_inv
  rw [hsync]
  have : ((prun evs initPartState).zone.length : Int) ≤ (MAX_EMOJIS : Int) := by
    exact_mod_cast hcap
  simpa [MAX_EMOJIS] using this

/-- C9: `emojiCount` always equals the number of particle spans in the
zone — every add and every removal path keeps counter and collection in
sync. -/
theorem emojiCount_matches_zone (evs : List PEvent) :
    (prun evs initPartState).emojiCount = ((prun evs initPartState).zone.length : Int) :=
  (prun_preserves_inv evs initPartState initPartState_inv).1

/-- The particle identity a timer event refers to (`none` for spawns and
clears). -/
def timerTarget : PEvent → Option Nat
  | PEvent.popFloat pid => some pid
  | PEvent.fadeStartEmoji pid => some pid
  | PEvent.fadeStartText pid => some pid
  | PEvent.fadeRemove pid => some pid
  | PEvent.spawnEmoji _ => none
  | PEvent.spawnText _ => none
  | PEvent.clear => none

theorem attached_false_of_forall (s : PartState) (pid : Nat)
    (h : ∀ p ∈ s.zone, p.pid ≠ pid) : attached s pid = false := by
  simp only [attached, List.any_eq_false, decide_eq_true_eq]
  exact h

/-- C7: a timer callback firing for a particle that is no longer attached
(removed by eviction or by `clearEmojis`) leaves the whole state
unchanged: no decrement of the count, no mutation of display state. -/
theorem stale_timer_noop (e : PEvent) (pid : Nat) (s : PartState)
    (ht : timerTarget e = some pid) (hd : ∀ p ∈ s.zone, p.pid ≠ pid) :
    pstep e s = s := by
  cases e with
  | spawnEmoji em => simp [timerTarget] at ht
  | spawnText w => simp [timerTarget] at ht
  | clear => simp [timerTarget] at ht
  | popFloat q =>
    have hq : q = pid := by simpa [timerTarget] using ht
    rw [hq]
    simp only [pstep, popFloat]
    rw [map_pid_of_not_attached pid _ s.zone hd]
  | fadeStartEmoji q =>
    have hq : q = pid := by simpa [timerTarget] using ht
    rw [hq]
    simp only [pstep, fadeStartEmoji]
    rw [map_pid_of_not_attached pid _ s.zone hd]
  | fadeStartText q =>
    have hq : q = pid := by simpa [timerTarget] using ht
    rw [hq]
    simp only [pstep, fadeStartText]
    rw [map_pid_of_not_attached pid _ s.zone hd]
  | fadeRemove q =>
    have hq : q = pid := by simpa [timerTarget] using ht
    rw [hq]
    simp [pstep, fadeRemove, attached_false_of_forall s pid hd]

/-- Witness: the 1s removal callback for an already-evicted particle
(identity 7) fires on a state holding one other particle, and is a
no-op. -/
theorem stale_timer_noop_witness :
    timerTarget (PEvent.fadeRemove 7) = some 7 ∧
    (∀ p ∈ (prun [PEvent.spawnEmoji "a"] initPartState).zone, p.pid ≠ 7) ∧
    pstep (PEvent.fadeRemove 7) (prun [PEvent.spawnEmoji "a"] initPartState) =
      prun [PEvent.spawnEmoji "a"] initPartState :=
  ⟨by decide, by decide,
   stale_timer_noop (PEvent.fadeRemove 7) 7 (prun [PEvent.spawnEmoji "a"] initPartState)
     (by decide) (by decide)⟩

/-- C3 (amended): at or above the cap, an emoji-particle spawn evicts the
single oldest particle (the head of the zone) and appends the new one,
keeping the count; a text-particle spawn at or above the cap is instead
dropped entirely — no eviction and no addition. -/
theorem spawn_at_cap (e w : String) (s : PartState)
    (hsync : s.emojiCount = (s.zone.length : Int))
    (hge : s.emojiCount ≥ 40) :
    (addEmojiParticle e s).zone =
      s.zone.tail ++ [⟨s.nextId, PKind.emoji, e, false, false⟩] ∧
    (addEmojiParticle e s).emojiCount = s.emojiCount ∧
    addTextParticle w s = s := by
  have hgeM : s.emojiCount ≥ (MAX_EMOJIS : Int) := by
    have : ((MAX_EMOJIS : Nat) : Int) = 40 := by norm_num [MAX_EMOJIS]
    rw [this]
    exact hge
  have hlen : (0 : Int) < (s.zone.length : Int) := by omega
  have hz : s.zone.isEmpty = false := by
    cases hzz : s.zone with
    | nil => rw [hzz] at hlen; simp at hlen
    | cons a b => rfl
  refine ⟨?_, ?_, ?_⟩
  · simp only [addEmojiParticle, if_pos hgeM, removeOldestEmoji, hz]
    simp
  · simp only [addEmojiParticle, if_pos hgeM, removeOldestEmoji, hz]
    simp
  · simp only [addTextParticle, if_pos hgeM]

/-- A state at the cap: forty emoji particles spawned from the initial
state. -/
def capState : PartState :=
  prun (List.replicate 40 (PEvent.spawnEmoji "a")) initPartState

set_option maxRecDepth 8192 in
/-- Counterexample to C3 as stated: at the cap, a text-particle spawn
does not evict the oldest particle and does not add the new one — the
state is completely unchanged (the oldest particle, identity 0, is still
at the head of the zone). -/
theorem text_particle_at_cap_dropped :
    capState.emojiCount = 40 ∧
    addTextParticle "word" capState = capState ∧
    (addTextParticle "word" capState).zone.head? =
      some ⟨0, PKind.emoji, "a", false, false⟩ := by
  refine ⟨by decide, by decide, by decide⟩

set_option maxRecDepth 8192 in
/-- Witness for the amended C3 at a concrete at-cap state: the emoji
spawn evicts the head and appends, the text spawn is dropped. -/
theorem spawn_at_cap_witness :
    capState.emojiCount = (capState.zone.length : Int) ∧
    capState.emojiCount ≥ 40 ∧
    (addEmojiParticle "b" capState).zone =
      capState.zone.tail ++ [⟨capState.nextId, PKind.emoji, "b", false, false⟩] ∧
    addTextParticle "word" capState = capState :=
  ⟨by decide, by decide,
   (spawn_at_cap "b" "word" capState (by decide) (by decide)).1,
   (spawn_at_cap "b" "word" capState (by decide) (by decide)).2.2⟩

/-! Dispatcher lemmas and theorems. -/

theorem schedRun_dispatched (ts : List String) (s : TransState) :
    (ts.foldl (fun acc x => scheduleTranslation x acc) s).dispatched = s.dispatched := by
  induction ts generalizing s with
  | nil => rfl
  | cons t rest ih => simpa [scheduleTranslation] using ih (scheduleTranslation t s)

theorem schedRun_last (ts : List String) (s : TransState) :
    (ts.foldl (fun acc x => scheduleTranslation x acc) s).lastTranslatedText =
      s.lastTranslatedText := by
  induction ts generalizing s with
  | nil => rfl
  | cons t rest ih => simpa [scheduleTranslation] using ih (scheduleTranslation t s)

theorem schedRun_concat (ts : List String) (t : String) (s : TransState) :
    ((ts ++ [t]).foldl (fun acc x => scheduleTranslation x acc) s).pending = some t := by
  rw [List.foldl_append]
  rfl

/-- C1: when a sequence of finalized-text updates all lands inside one
debounce window (each update restarting the timer via
`scheduleTranslation`, none dispatching), the single timer expiry
dispatches exactly one batch, carrying the final scheduled text — given
that that final text is non-empty and differs from the last dispatched
text, as it does when the transcript has grown. -/
theorem debounce_batches_once (ts : List String) (t : String) (s : TransState)
    (hne : t ≠ "") (hdiff : t ≠ s.lastTranslatedText) :
    ((ts ++ [t]).foldl (fun acc x => scheduleTranslation x acc) s).dispatched =
      s.dispatched ∧
    (fireDebounce ((ts ++ [t]).foldl (fun acc x => scheduleTranslation x acc) s)).dispatched =
      s.dispatched ++ [t] ∧
    (fireDebounce ((ts ++ [t]).foldl (fun acc x => scheduleTranslation x acc) s)).lastTranslatedText =
      t := by
  have hd := schedRun_dispatched (ts ++ [t]) s
  have hl := schedRun_last (ts ++ [t]) s
  have hp := schedRun_concat ts t s
  refine ⟨hd, ?_, ?_⟩
  · simp only [fireDebounce, hp]
    rw [hl]
    rw [if_pos ⟨hne, hdiff⟩]
    rw [hd]
  · simp only [fireDebounce, hp]
    rw [hl]
    rw [if_pos ⟨hne, hdiff⟩]

/-- Witness: two updates inside one window from the initial state; only
the second text is dispatched. -/
theorem debounce_batches_once_witness :
    ("hallo welt" : String) ≠ "" ∧
    ("hallo welt" : String) ≠ initTransState.lastTranslatedText ∧
    (fireDebounce ((["hallo"] ++ ["hallo welt"]).foldl
        (fun acc x => scheduleTranslation x acc) initTransState)).dispatched =
      initTransState.dispatched ++ ["hallo welt"] :=
  ⟨by decide, by decide,
   (debounce_batches_once ["hallo"] "hallo welt" initTransState
     (by decide) (by decide)).2.1⟩

/-- C5: when the debounce timer elapses, the batch is dispatched exactly
when the scheduled text is non-empty and differs from the last dispatched
text; in particular no batch ever fires for text equal to the previously
dispatched text. -/
theorem fire_only_on_new_text (s : TransState) (t : String) (hp : s.pending = some t) :
    (fireDebounce s).dispatched =
      if t ≠ "" ∧ t ≠ s.lastTranslatedText then s.dispatched ++ [t]
      else s.dispatched := by
  simp only [fireDebounce, hp]
  by_cases hc : t ≠ "" ∧ t ≠ s.lastTranslatedText
  · simp [hc]
  · simp [hc]

/-- A dispatcher state whose pending text equals the already dispatched
text. -/
def repeatState : TransState :=
  { finalTranscript := "hallo", lastTranslatedText := "hallo",
    pending := some "hallo", dispatched := ["hallo"] }

/-- Witness: with pending text equal to the last dispatched text, the
expiry dispatches nothing. -/
theorem fire_only_on_new_text_witness :
    repeatState.pending = some "hallo" ∧
    (fireDebounce repeatState).dispatched = ["hallo"] :=
  ⟨rfl, by
    rw [fire_only_on_new_text repeatState "hallo" rfl]
    decide⟩

/-- C4 fails on the code: neither `handleLangChange` nor the KeyC clear
handler contains a `clearTimeout`, so a pending debounce callback
survives both; and because both reset `lastTranslatedText` to the empty
string, the stale pre-change text then passes the freshness guard and a
batch for it is dispatched after the change/clear. -/
theorem stale_batch_after_lang_change :
    (handleLangChangeTrans (handleFinalText "hallo welt" initTransState)).pending =
      some "hallo welt" ∧
    (fireDebounce (handleLangChangeTrans
        (handleFinalText "hallo welt" initTransState))).dispatched = ["hallo welt"] ∧
    (clearSessionTrans (handleFinalText "hallo welt" initTransState)).pending =
      some "hallo welt" ∧
    (fireDebounce (clearSessionTrans
        (handleFinalText "hallo welt" initTransState))).dispatched = ["hallo welt"] := by
  refine ⟨by decide, by decide, by decide, by decide⟩

/-! Batch-fanout lemmas and theorem. -/

theorem setSlot_cons (k u lang v : String) (rest : Slots) :
    setSlot ((k, u) :: rest) lang v =
      (if k = lang then (k, v) else (k, u)) :: setSlot rest lang v := by
  simp [setSlot]

theorem lookup_setSlot_self (sl : Slots) (lang v : String) :
    List.lookup lang (setSlot sl lang v) = (List.lookup lang sl).map (fun _ => v) := by
  induction sl with
  | nil => rfl
  | cons kv rest ih =>
    obtain ⟨k, u⟩ := kv
    rw [setSlot_cons]
    by_cases hk : k = lang
    · subst hk
      rw [if_pos rfl]
      simp [List.lookup]
    · rw [if_neg hk]
      have hk2 : (lang == k) = false := by
        simp [Ne.symm hk]
      simp only [List.lookup, hk2]
      exact ih

theorem lookup_setSlot_other (sl : Slots) (lang lang2 v : String) (h : lang ≠ lang2) :
    List.lookup lang (setSlot sl lang2 v) = List.lookup lang sl := by
  induction sl with
  | nil => rfl
  | cons kv rest ih =>
    obtain ⟨k, u⟩ := kv
    rw [setSlot_cons]
    by_cases hk : k = lang2
    · subst hk
      rw [if_pos rfl]
      have hk2 : (lang == k) = false := by
        simp [h]
      simp only [List.lookup, hk2]
      exact ih
    · rw [if_neg hk]
      by_cases he : (lang == k) = true
      · simp [List.lookup, he]
      · have he2 : (lang == k) = false := by
          simpa using he
        simp only [List.lookup, he2]
        exact ih

theorem lookup_translateAll (targets : List String) (resp : String → FetchResult)
    (sl : Slots) (lang : String) (hnd : targets.Nodup) :
    List.lookup lang (translateAll targets resp sl) =
      if lang ∈ targets then
        match translateText (resp lang) with
        | some v => (List.lookup lang sl).map (fun _ => v)
        | none => List.lookup lang sl
      else List.lookup lang sl := by
  induction targets generalizing sl with
  | nil => simp [translateAll]
  | cons hd tl ih =>
    have hnd2 : tl.Nodup := hnd.of_cons
    have hhd : hd ∉ tl := (List.nodup_cons.mp hnd).1
    cases hr : translateText (resp hd) with
    | none =>
      have hstep2 : translateAll (hd :: tl) resp sl = translateAll tl resp sl := by
        simp only [translateAll, List.foldl_cons, hr]
      rw [hstep2, ih _ hnd2]
      by_cases hlang : lang = hd
      · subst hlang
        rw [if_neg hhd, if_pos (List.mem_cons_self lang tl), hr]
      · by_cases hin : lang ∈ tl
        · rw [if_pos hin, if_pos (List.mem_cons_of_mem hd hin)]
        · rw [if_neg hin, if_neg (by simp [List.mem_cons, hlang, hin] : ¬ lang ∈ hd :: tl)]
    | some v =>
      have hstep2 : translateAll (hd :: tl) resp sl =
          translateAll tl resp (setSlot sl hd v) := by
        simp only [translateAll, List.foldl_cons, hr]
      rw [hstep2, ih _ hnd2]
      by_cases hlang : lang = hd
      · subst hlang
        rw [if_neg hhd, if_pos (List.mem_cons_self lang tl), hr, lookup_setSlot_self]
      · by_cases hin : lang ∈ tl
        · rw [if_pos hin, if_pos (List.mem_cons_of_mem hd hin)]
          cases translateText (resp lang) with
          | none => exact lookup_setSlot_other sl lang hd v hlang
          | some w => rw [lookup_setSlot_other sl lang hd v hlang]
        · rw [if_neg hin, if_neg (by simp [List.mem_cons, hlang, hin] : ¬ lang ∈ hd :: tl)]
          exact lookup_setSlot_other sl lang hd v hlang

/-- C6: in a translation batch the per-target results, joined
all-settled, are applied independently: a target's card changes exactly
when its own request produced a truthy translated string (and the card
exists), is left untouched when its request failed or the response was
malformed, and cards outside the batch are never touched. The batch is a
total function of the per-target outcomes, so no exception escapes it. -/
theorem translateAll_independent_updates (src : String) (resp : String → FetchResult)
    (sl : Slots) (lang : String) :
    List.lookup lang (translateAll (targetLangs src) resp sl) =
      if lang ∈ targetLangs src then
        match translateText (resp lang) with
        | some v => (List.lookup lang sl).map (fun _ => v)
        | none => List.lookup lang sl
      else List.lookup lang sl := by
  apply lookup_translateAll
  exact List.Nodup.filter _ (by decide)

/-! Scanner theorems. -/

/-- C10: a token of length 2 or 3 that is not in the emoji dictionary
spawns no particle of any kind (text particles need length strictly
greater than 3), yet still counts toward the sentiment scores when it is
in the positive or negative word set. -/
theorem short_unknown_token_spawns_nothing (d : Dicts) (s : PartState) (w : String)
    (hlen : w.length = 2 ∨ w.length = 3)
    (hlook : List.lookup w d.emojiDict = none) :
    (scanWord d s w).zone = s.zone ∧
    (scanWord d s w).emojiCount = s.emojiCount ∧
    (scanWord d s w).positiveScore =
      s.positiveScore + (if w ∈ d.positiveWords then 1 else 0) ∧
    (scanWord d s w).negativeScore =
      s.negativeScore + (if w ∈ d.negativeWords then 1 else 0) := by
  have h3 : ¬ w.length > 3 := by
    rcases hlen with h | h <;> omega
  by_cases hp : w ∈ d.positiveWords <;>
    by_cases hn : w ∈ d.negativeWords <;>
      simp [scanWord, hlook, h3, hp, hn]

/-- Dictionaries used to witness the scanner theorems: `liebe` is mapped
to an emoji and positive, `gut` is positive but unmapped, `mies` is
negative. -/
def witnessDicts : Dicts :=
  { emojiDict := [("liebe", "L")], positiveWords := ["liebe", "gut"],
    negativeWords := ["mies"] }

/-- Witness: the in-positive-set, unmapped, length-3 token `gut` spawns
nothing but increments the positive score. -/
theorem short_unknown_token_spawns_nothing_witness :
    (("gut" : String).length = 2 ∨ ("gut" : String).length = 3) ∧
    List.lookup "gut" witnessDicts.emojiDict = none ∧
    (scanWord witnessDicts initPartState "gut").zone = initPartState.zone ∧
    (scanWord witnessDicts initPartState "gut").positiveScore =
      initPartState.positiveScore +
        (if "gut" ∈ witnessDicts.positiveWords then 1 else 0) :=
  ⟨by decide, by decide,
   (short_unknown_token_spawns_nothing witnessDicts initPartState "gut"
     (by decide) (by decide)).1,
   (short_unknown_token_spawns_nothing witnessDicts initPartState "gut"
     (by decide) (by decide)).2.2.1⟩

/-- C8: scanning `ich liebe das` from the initial state, with `liebe` in
the positive set and mapped to an emoji and no other token (and no
multi-word combo) matching any dictionary, spawns exactly one particle,
raises `positiveScore` to exactly 1, and leaves the mood neutral
(net sentiment 1, below the threshold of 2). -/
theorem scan_ich_liebe_das (d : Dicts) (e : String)
    (hcombos : d.emojiDict.filter (fun kv => comboKey kv.1) = [])
    (hliebe : List.lookup "liebe" d.emojiDict = some e)
    (he : e ≠ "")
    (hich : List.lookup "ich" d.emojiDict = none)
    (hdas : List.lookup "das" d.emojiDict = none)
    (hpliebe : "liebe" ∈ d.positiveWords)
    (hpich : "ich" ∉ d.positiveWords)
    (hpdas : "das" ∉ d.positiveWords)
    (hnich : "ich" ∉ d.negativeWords)
    (hnliebe : "liebe" ∉ d.negativeWords)
    (hndas : "das" ∉ d.negativeWords) :
    processWordsForEmoji d "ich liebe das" initPartState =
      { zone := [⟨0, PKind.emoji, e, false, false⟩], emojiCount := 1, nextId := 1,
        positiveScore := 1, negativeScore := 0, mood := Mood.neutral } := by
  have ht : tokenize "ich liebe das" = ["ich", "liebe", "das"] := by decide
  have hc : scanCombos d (toLowerChars "ich liebe das") initPartState = initPartState := by
    simp [scanCombos, hcombos]
  have hlich : ("ich" : String).length = 3 := by decide
  have hldas : ("das" : String).length = 3 := by decide
  have h1 : scanWord d initPartState "ich" = initPartState := by
    simp [scanWord, hich, hpich, hnich, hlich]
  have h2 : scanWord d initPartState "liebe" =
      { zone := [⟨0, PKind.emoji, e, false, false⟩], emojiCount := 1, nextId := 1,
        positiveScore := 1, negativeScore := 0, mood := Mood.neutral } := by
    simp [scanWord, hliebe, hpliebe, hnliebe, he, addEmojiParticle, removeOldestEmoji,
      initPartState, MAX_EMOJIS]
  have h3 : scanWord d
      { zone := [⟨0, PKind.emoji, e, false, false⟩], emojiCount := 1, nextId := 1,
        positiveScore := 1, negativeScore := 0, mood := Mood.neutral } "das" =
      { zone := [⟨0, PKind.emoji, e, false, false⟩], emojiCount := 1, nextId := 1,
        positiveScore := 1, negativeScore := 0, mood := Mood.neutral } := by
    simp [scanWord, hdas, hpdas, hndas, hldas]
  simp only [processWordsForEmoji]
  rw [ht, hc]
  rw [List.foldl_cons, h1, List.foldl_cons, h2, List.foldl_cons, h3, List.foldl_nil]
  simp [updateMood]

/-- Witness: the scenario with the witness dictionaries. -/
theorem scan_ich_liebe_das_witness :
    processWordsForEmoji witnessDicts "ich liebe das" initPartState =
      { zone := [⟨0, PKind.emoji, "L", false, false⟩], emojiCount := 1, nextId := 1,
        positiveScore := 1, negativeScore := 0, mood := Mood.neutral } :=
  scan_ich_liebe_das witnessDicts "L" (by decide) (by decide) (by decide) (by decide)
    (by decide) (by decide) (by decide) (by decide) (by decide) (by decide) (by decide)

end CypherBeam
